import Mathlib

/-!
# Verification of `whisper_live/text_processing.py`

A shallow embedding of `TranscriptProcessor` from
`src/whisper_live/text_processing.py`, together with theorems settling the
spec's claims about `summarize_transcript` and `generate_text_name`.

Modelling conventions:

* A Python `str` is a `List Char` (`PyStr`); `len` is `List.length`,
  `s[:n]` is `List.take n`, `str.split` / `str.join` / `str.replace` are
  embedded below as `pySplit` / `pyJoin` / `pyReplaceChar`.
* The chat-completions endpoint used by `model_response` is abstracted as an
  `Oracle ε`: a deterministic map from (system instructions, user prompt,
  model name) to either a transport error `ε` or the response text.
* An invocation's observable behaviour is returned as a record: the remote
  calls attempted in order, what (if anything) was written to `summary.md`,
  whether the chunked branch ran (observable in the source through its
  `print` statements), and the Python return value or the raised exception.
* Floating point: the source compares integers against
  `context_length * 0.6` and `context_length * 0.8`.  For both context
  lengths reachable from the model table (`65540 = 16385 * 4` and
  `512000 = 128000 * 4` characters) the IEEE-754 doubles are exactly the
  integers `39324.0`, `52432.0`, `307200.0`, `409600.0`, i.e. exactly the
  rational values `contextLength * 3 / 5` and `contextLength * 4 / 5`.
  The comparisons are therefore embedded as the exact integer comparisons
  `10 * n < 6 * contextLength` and `10 * n > 8 * contextLength`, which
  coincide with the Python float comparisons for every reachable context
  length.
-/

namespace WhisperLive

/-- A Python `str`, modelled as its list of characters. -/
abbrev PyStr := List Char

/-- Python `s.split(sep)` for a single-character separator `sep`: splits on
every occurrence, keeping empty pieces (`"a..b".split(".") = ["a","","b"]`,
`"".split(".") = [""]`). -/
def pySplit (sep : Char) : PyStr → List PyStr
  | [] => [[]]
  | c :: cs =>
    if c = sep then [] :: pySplit sep cs
    else
      match pySplit sep cs with
      | [] => [[c]]
      | t :: ts => (c :: t) :: ts

/-- Python `sep.join(parts)` for a single-character separator `sep`. -/
def pyJoin (sep : Char) : List PyStr → PyStr
  | [] => []
  | [s] => s
  | s :: rest => s ++ sep :: pyJoin sep rest

/-- Python `s.replace(old, new)` for a single-character `old`. -/
def pyReplaceChar (old : Char) (new : PyStr) : PyStr → PyStr
  | [] => []
  | c :: cs =>
    if c = old then new ++ pyReplaceChar old new cs
    else c :: pyReplaceChar old new cs

/-- The model table built in `TranscriptProcessor.__init__`: model name to
context size in tokens.  A lookup `self.models[model]` on an absent key raises
`KeyError`, hence the `Option`. -/
def models (m : PyStr) : Option Nat :=
  if m = "gpt-4-0125-preview".data then some 128000
  else if m = "gpt-3.5-turbo-0125".data then some 16385
  else none

/-- `self.instructions["summarize"]` (apostrophes and trailing spaces of the
source text written as `\x27` and `\x20` escapes). -/
def instructionsSummarize : PyStr :=
  ("You will be given a text that represents a lesson transcript.\n"
    ++ "        The main speaker does 90% of the talking. Sometimes others will ask questions and he will answer them.\n"
    ++ "        Please format everything in markdown. Create sections based on the topic that is being talked about.\n"
    ++ "        Be detailed, incorporate main ideas and essential information, eliminating extraneous language and focusing on critical aspects.\n"
    ++ "        Rely strictly on the provided text, without including external information.\n"
    ++ "        Take notes from the perspective of a listener. Use bullet points for main ideas.\x20\n"
    ++ "        Note should represent concrete advice that is being given.").data

/-- `self.instructions["fix_summary"]` (apostrophes and trailing spaces of the
source text written as `\x27` and `\x20` escapes). -/
def instructionsFixSummary : PyStr :=
  ("You will be given summary that is made out of multiple notes.\x20\n"
    ++ "        Please create one note out of it. Don\x27t leave anything out unless it\x27s already mentioned multiple times.\n"
    ++ "        Don\x27t add any extra content.\n"
    ++ "        Fix the section names so that they don\x27t repeat.").data

/-- The instruction string local to `generate_text_name`. -/
def instructionsName : PyStr :=
  "You will be given part of a larger text, please provide the name that is 3-5 words long that reflects the text content.".data

/-- The default value of the `model` parameter of `model_response` (and hence
of `summarize_transcript`). -/
def defaultModel : PyStr := "gpt-3.5-turbo-0125".data

/-- The chat-completions endpoint, abstracted: instructions, prompt and model
name to either a transport error or `completion.choices[0].message.content`. -/
def Oracle (ε : Type) := PyStr → PyStr → PyStr → Except ε PyStr

/-- One chat-completions request as issued by `model_response`. -/
structure RemoteCall where
  instr : PyStr
  prompt : PyStr
  model : PyStr
deriving DecidableEq

/-- A Python exception escaping `summarize_transcript`: the `KeyError` of the
`self.models[model]` lookup, or a transport error from the endpoint. -/
inductive PyErr (ε : Type) where
  | keyError : PyStr → PyErr ε
  | remote : ε → PyErr ε
deriving DecidableEq

/-- `TranscriptProcessor.model_response`: performs one chat-completions
request and returns the response text, or propagates the transport error. -/
def model_response (complete : Oracle ε) (instr prompt model : PyStr) :
    Except ε PyStr :=
  complete instr prompt model

/-- The chunk-building loop of the chunked path of `summarize_transcript`,
kept at the level of sentence lists.  `cur` and `cl` are `current_chunk` and
`current_chunk_length`.  The flush test
`current_chunk_length > context_length * 0.8` is embedded as the exact
comparison `10 * cl > 8 * contextLength` (see the float note in the header).
Note the source's `else`: in a flush iteration the iteration's own sentence
is neither appended to the new chunk nor reconsidered. -/
def chunkLoop (contextLength : Nat) : List PyStr → List PyStr → Nat → List (List PyStr)
  | [], cur, _ => if cur = [] then [] else [cur]
  | s :: rest, cur, cl =>
    if 10 * cl > 8 * contextLength then
      cur :: chunkLoop contextLength rest [] 0
    else
      chunkLoop contextLength rest (cur ++ [s]) (cl + s.length)

/-- The chunks produced by the chunked path, before `.`-joining: each element
is the sentence list of one chunk. -/
def buildChunksL (contextLength : Nat) (sentences : List PyStr) : List (List PyStr) :=
  chunkLoop contextLength sentences [] 0

/-- The `chunks` list as the source stores it: every chunk is
`".".join(current_chunk)`. -/
def buildChunks (contextLength : Nat) (sentences : List PyStr) : List PyStr :=
  (buildChunksL contextLength sentences).map (pyJoin '.')

/-- The character count of a chunk as tracked by `current_chunk_length`: the
sum of the lengths of its sentences (separator dots are not counted). -/
def chunkChars (chunk : List PyStr) : Nat :=
  (chunk.map List.length).sum

/-- The `for i, chunk in enumerate(chunks, 1)` loop of the chunked path: one
`summarize` request per chunk, in order, stopping at the first transport
error.  Returns the requests attempted together with either the collected
partial summaries or the first error. -/
def summarizeParts (complete : Oracle ε) (model : PyStr) :
    List PyStr → List RemoteCall × Except ε (List PyStr)
  | [] => ([], Except.ok [])
  | chunk :: rest =>
    match complete instructionsSummarize chunk model with
    | Except.error e => ([⟨instructionsSummarize, chunk, model⟩], Except.error e)
    | Except.ok s =>
      let r := summarizeParts complete model rest
      (⟨instructionsSummarize, chunk, model⟩ :: r.1,
        match r.2 with
        | Except.error e => Except.error e
        | Except.ok ss => Except.ok (s :: ss))

/-- The observable outcome of one `summarize_transcript` invocation. -/
structure SummarizeOutcome (ε : Type) where
  /-- The remote calls attempted, in order (a failing request is attempted). -/
  calls : List RemoteCall
  /-- The content written to `summary.md`, if the write was reached. -/
  written : Option PyStr
  /-- Whether the chunked branch ran (observable through its `print` calls). -/
  chunkedPath : Bool
  /-- The Python return value (`None`) or the propagated exception. -/
  result : Except (PyErr ε) (Option PyStr)

/-- `TranscriptProcessor.summarize_transcript`.  `context_length` is
`self.models[model]["context"] * 4`; the direct-path test
`len(transcript) < context_length * 0.6` is embedded as the exact comparison
`10 * len < 6 * contextLength` (see the float note in the header).  The
summary is written to `summary.md` only after the full result is computed,
and the function returns `None`. -/
def summarize_transcript (complete : Oracle ε) (transcript : PyStr)
    (model : PyStr) : SummarizeOutcome ε :=
  match models model with
  | none => ⟨[], none, false, Except.error (PyErr.keyError model)⟩
  | some ctx =>
    let contextLength := ctx * 4
    if 10 * transcript.length < 6 * contextLength then
      match complete instructionsSummarize transcript model with
      | Except.error e =>
        ⟨[⟨instructionsSummarize, transcript, model⟩], none, false,
          Except.error (PyErr.remote e)⟩
      | Except.ok summary =>
        ⟨[⟨instructionsSummarize, transcript, model⟩], some summary, false,
          Except.ok none⟩
    else
      let sentences := pySplit '.' transcript
      let chunks := buildChunks contextLength sentences
      let pr := summarizeParts complete model chunks
      match pr.2 with
      | Except.error e => ⟨pr.1, none, true, Except.error (PyErr.remote e)⟩
      | Except.ok summaries =>
        let joined := pyJoin '\n' summaries
        match complete instructionsFixSummary joined model with
        | Except.error e =>
          ⟨pr.1 ++ [⟨instructionsFixSummary, joined, model⟩], none, true,
            Except.error (PyErr.remote e)⟩
        | Except.ok summary =>
          ⟨pr.1 ++ [⟨instructionsFixSummary, joined, model⟩], some summary, true,
            Except.ok none⟩

/-- The observable outcome of one `generate_text_name` invocation. -/
structure NameOutcome (ε : Type) where
  /-- The remote calls attempted, in order. -/
  calls : List RemoteCall
  /-- The returned name, or the propagated transport error. -/
  result : Except ε PyStr

/-- `TranscriptProcessor.generate_text_name`: one request on the first `head`
characters of the transcript, addressed through `model_response` with its
default model; the response has every `"` removed and every space replaced by
`_`. -/
def generate_text_name (complete : Oracle ε) (transcript : PyStr)
    (head : Nat) : NameOutcome ε :=
  match model_response complete instructionsName (transcript.take head) defaultModel with
  | Except.error e =>
    ⟨[⟨instructionsName, transcript.take head, defaultModel⟩], Except.error e⟩
  | Except.ok s =>
    ⟨[⟨instructionsName, transcript.take head, defaultModel⟩],
      Except.ok (pyReplaceChar ' ' ['_'] (pyReplaceChar '\"' [] s))⟩

/-- A transcript exercising the chunked path of `summarize_transcript` for
the default model (context 16385 tokens, 65540 characters): one
52433-character sentence, then the sentences `b` and `c`.  Its length is
52437 ≥ 39324, so the chunked path is taken, and while processing the
sentence `b` the accumulated length 52433 exceeds the flush threshold
52432. -/
def failT : PyStr := List.replicate 52433 'a' ++ ('.' :: 'b' :: '.' :: 'c' :: [])

/-! ## Lemmas about the string primitives -/

theorem pySplit_ne_nil (sep : Char) : ∀ cs : PyStr, pySplit sep cs ≠ []
  | [] => by simp [pySplit]
  | c :: cs => by
    by_cases h : c = sep
    · simp [pySplit, h]
    · simp only [pySplit, if_neg h]
      cases hs : pySplit sep cs with
      | nil => simp
      | cons t ts => simp

theorem pySplit_append (sep : Char) (ys : PyStr) (xs : PyStr)
    (h : ∀ c ∈ xs, c ≠ sep) :
    pySplit sep (xs ++ ys) =
      (xs ++ (pySplit sep ys).headI) :: (pySplit sep ys).tail := by
  induction xs with
  | nil =>
    cases hys : pySplit sep ys with
    | nil => exact absurd hys (pySplit_ne_nil sep ys)
    | cons t ts => simp [hys]
  | cons x xs ih =>
    have hx : x ≠ sep := h x (List.mem_cons_self x xs)
    have ih2 := ih fun c hc => h c (List.mem_cons_of_mem x hc)
    simp only [List.cons_append, pySplit, if_neg hx, List.append_eq, ih2]

theorem pySplit_eq_singleton (sep : Char) (xs : PyStr)
    (h : ∀ c ∈ xs, c ≠ sep) : pySplit sep xs = [xs] := by
  have key := pySplit_append sep [] xs h
  simpa [pySplit] using key

theorem pyReplaceChar_del (old : Char) :
    ∀ s : PyStr, pyReplaceChar old [] s = s.filter fun c => decide (c ≠ old)
  | [] => rfl
  | c :: cs => by
    by_cases h : c = old <;>
      simp [pyReplaceChar, h, List.filter, pyReplaceChar_del old cs]

theorem pyReplaceChar_sub (old : Char) (y : Char) :
    ∀ s : PyStr, pyReplaceChar old [y] s = s.map fun c => if c = old then y else c
  | [] => rfl
  | c :: cs => by
    by_cases h : c = old <;>
      simp [pyReplaceChar, h, pyReplaceChar_sub old y cs]

/-! ## Claims about `generate_text_name` -/

/-- C8: for every transcript and every `head` value, `generate_text_name`
sends exactly the first `head` characters of the transcript (the whole
transcript if shorter, via `List.take`) as the user text of one remote call,
and returns the response with every double-quote character removed and every
space character replaced by an underscore. -/
theorem title_generation (ε : Type) (complete : Oracle ε) (t : PyStr)
    (head : Nat) (resp : PyStr)
    (h : complete instructionsName (t.take head) defaultModel = Except.ok resp) :
    (generate_text_name complete t head).calls =
      [⟨instructionsName, t.take head, defaultModel⟩] ∧
    (generate_text_name complete t head).result =
      Except.ok ((resp.filter fun c => decide (c ≠ '\"')).map
        fun c => if c = ' ' then '_' else c) := by
  unfold generate_text_name model_response
  rw [h]
  refine ⟨rfl, ?_⟩
  show Except.ok (pyReplaceChar ' ' ['_'] (pyReplaceChar '\"' [] resp)) = _
  rw [pyReplaceChar_del, pyReplaceChar_sub]

/-- Witness for C8, matching the spec's Scenario D: a 2000-character
transcript with `head = 1000` sends exactly the first 1000 characters, and the
response `He said "Go Fast"` is returned as `He_said_Go_Fast`. -/
theorem title_generation_witness :
    (generate_text_name
        (fun _ _ _ => Except.ok ("He said \"Go Fast\"".data) : Oracle Unit)
        (List.replicate 2000 'a') 1000).calls =
      [⟨instructionsName, List.replicate 1000 'a', defaultModel⟩] ∧
    (generate_text_name
        (fun _ _ _ => Except.ok ("He said \"Go Fast\"".data) : Oracle Unit)
        (List.replicate 2000 'a') 1000).result =
      Except.ok ("He_said_Go_Fast".data) := by
  have key := title_generation Unit
    (fun _ _ _ => Except.ok ("He said \"Go Fast\"".data))
    (List.replicate 2000 'a') 1000 ("He said \"Go Fast\"".data) rfl
  refine ⟨key.1.trans ?_, key.2.trans ?_⟩
  · rw [List.take_replicate]
    norm_num
  · simp only [Except.ok.injEq]
    decide

/-- C10 (implicit): every remote call issued by `generate_text_name` is
addressed to the hard-coded default model `gpt-3.5-turbo-0125` of
`model_response`; the function has no model parameter, so this holds for every
oracle, transcript and `head` value, on the success and the error path alike,
and there is exactly one such call. -/
theorem title_model_fixed (ε : Type) (complete : Oracle ε) (t : PyStr)
    (head : Nat) :
    ((generate_text_name complete t head).calls.map fun c => c.model) =
      [defaultModel] := by
  unfold generate_text_name model_response
  cases complete instructionsName (t.take head) defaultModel <;> rfl

/-! ## Lemmas about the chunk-summarization loop -/

theorem summarizeParts_all_ok (ε : Type) (complete : Oracle ε)
    (resp : PyStr → PyStr → PyStr → PyStr)
    (hok : ∀ i p m, complete i p m = Except.ok (resp i p m)) (model : PyStr) :
    ∀ chunks : List PyStr,
      summarizeParts complete model chunks =
        ((chunks.map fun c => ⟨instructionsSummarize, c, model⟩),
          Except.ok (chunks.map fun c => resp instructionsSummarize c model))
  | [] => by simp [summarizeParts]
  | chunk :: rest => by
    have ih := summarizeParts_all_ok ε complete resp hok model rest
    simp [summarizeParts, hok, ih]

theorem summarizeParts_calls_ok (ε : Type) (complete : Oracle ε)
    (model : PyStr) :
    ∀ (chunks : List PyStr) (ss : List PyStr),
      (summarizeParts complete model chunks).2 = Except.ok ss →
      ∀ c ∈ (summarizeParts complete model chunks).1,
        ∃ r, complete c.instr c.prompt c.model = Except.ok r
  | [], ss, _ => by simp [summarizeParts]
  | chunk :: rest, ss, h => by
    cases hc : complete instructionsSummarize chunk model with
    | error e =>
      rw [summarizeParts, hc] at h
      cases h
    | ok s =>
      intro c hcm
      simp only [summarizeParts, hc] at h hcm
      rcases List.mem_cons.mp hcm with rfl | hcm2
      · exact ⟨s, hc⟩
      · cases hr : (summarizeParts complete model rest).2 with
        | error e => simp only [hr] at h; exact Except.noConfusion h
        | ok ss2 =>
          exact summarizeParts_calls_ok ε complete model rest ss2 hr c hcm2

/-- Master case analysis for one `summarize_transcript` invocation: either it
succeeds (the Python return value is `None`, the summary was written, and
every attempted remote call succeeded), or it fails (nothing is written and
an exception propagates). -/
theorem summarize_cases (ε : Type) (complete : Oracle ε) (t m : PyStr) :
    ((summarize_transcript complete t m).result = Except.ok none ∧
      (∃ s, (summarize_transcript complete t m).written = some s) ∧
      ∀ c ∈ (summarize_transcript complete t m).calls,
        ∃ rr, complete c.instr c.prompt c.model = Except.ok rr) ∨
    ((summarize_transcript complete t m).written = none ∧
      ∃ pe, (summarize_transcript complete t m).result = Except.error pe) := by
  unfold summarize_transcript
  cases hm : models m with
  | none => exact Or.inr ⟨rfl, ⟨PyErr.keyError m, rfl⟩⟩
  | some ctx =>
    by_cases hlen : 10 * t.length < 6 * (ctx * 4)
    · simp only [if_pos hlen]
      cases hc : complete instructionsSummarize t m with
      | error e => exact Or.inr ⟨rfl, ⟨PyErr.remote e, rfl⟩⟩
      | ok s =>
        refine Or.inl ⟨rfl, ⟨s, rfl⟩, ?_⟩
        intro c hcm
        rcases List.mem_singleton.mp hcm with rfl
        exact ⟨s, hc⟩
    · simp only [if_neg hlen]
      split
      next e hp => exact Or.inr ⟨rfl, ⟨PyErr.remote e, rfl⟩⟩
      next summaries hp =>
        split
        next e hfix => exact Or.inr ⟨rfl, ⟨PyErr.remote e, rfl⟩⟩
        next fixres hfix =>
          refine Or.inl ⟨rfl, ⟨fixres, rfl⟩, ?_⟩
          intro c hcm
          rcases List.mem_append.mp hcm with hin | hlast
          · exact summarizeParts_calls_ok ε complete m _ summaries hp c hin
          · rcases List.mem_singleton.mp hlast with rfl
            exact ⟨fixres, hfix⟩

/-! ## Claims about `summarize_transcript` -/

/-- C9: for every `model` that is not a key of the model table, the lookup
`self.models[model]` raises `KeyError` before any remote call is made and
before any output is written. -/
theorem unknown_model_rejected (ε : Type) (complete : Oracle ε) (t m : PyStr)
    (h : models m = none) :
    (summarize_transcript complete t m).calls = [] ∧
    (summarize_transcript complete t m).written = none ∧
    (summarize_transcript complete t m).result =
      Except.error (PyErr.keyError m) := by
  unfold summarize_transcript
  rw [h]
  exact ⟨rfl, rfl, rfl⟩

/-- Witness for C9: the unknown model name `gpt-5` is rejected with a
`KeyError` and no call, no write. -/
theorem unknown_model_rejected_witness :
    models "gpt-5".data = none ∧
    (summarize_transcript (fun _ _ _ => Except.ok ['s'] : Oracle Unit)
        ['h', 'i'] "gpt-5".data).calls = [] ∧
    (summarize_transcript (fun _ _ _ => Except.ok ['s'] : Oracle Unit)
        ['h', 'i'] "gpt-5".data).written = none ∧
    (summarize_transcript (fun _ _ _ => Except.ok ['s'] : Oracle Unit)
        ['h', 'i'] "gpt-5".data).result =
      Except.error (PyErr.keyError "gpt-5".data) := by
  have h : models "gpt-5".data = none := by decide
  have key := unknown_model_rejected Unit
    (fun _ _ _ => Except.ok ['s']) ['h', 'i'] "gpt-5".data h
  exact ⟨h, key.1, key.2.1, key.2.2⟩

/-- C4 as stated fails on the code: on a successful invocation,
`summarize_transcript` writes the summary to `summary.md` but returns `None`
(embedded: `Except.ok none`), so the computed FinalSummary is not yielded to
the caller and in particular the value returned is not the persisted text. -/
theorem summarize_yields_nothing_cex :
    (summarize_transcript (fun _ _ _ => Except.ok ['s'] : Oracle Unit)
        ['h', 'i'] defaultModel).written = some ['s'] ∧
    ¬ ∃ v : PyStr,
        (summarize_transcript (fun _ _ _ => Except.ok ['s'] : Oracle Unit)
            ['h', 'i'] defaultModel).result = Except.ok (some v) := by
  refine ⟨rfl, ?_⟩
  rintro ⟨v, hv⟩
  have hres : (summarize_transcript (fun _ _ _ => Except.ok ['s'] : Oracle Unit)
      ['h', 'i'] defaultModel).result = Except.ok (none : Option PyStr) := rfl
  rw [hres] at hv
  simp at hv

/-- C4 amended: on every successful invocation the computed FinalSummary is
persisted to `summary.md`, but the function returns `None` to its caller — it
yields no value. -/
theorem summarize_result_none (ε : Type) (complete : Oracle ε) (t m : PyStr)
    (r : Option PyStr)
    (h : (summarize_transcript complete t m).result = Except.ok r) :
    r = none ∧ ∃ s, (summarize_transcript complete t m).written = some s := by
  rcases summarize_cases ε complete t m with ⟨hres, hw, _⟩ | ⟨_, pe, hpe⟩
  · rw [h] at hres
    exact ⟨Except.ok.inj hres, hw⟩
  · rw [hpe] at h
    exact Except.noConfusion h

/-- Witness for the amended C4 at a concrete successful invocation. -/
theorem summarize_result_none_witness :
    (summarize_transcript (fun _ _ _ => Except.ok ['s'] : Oracle Unit)
        ['h', 'i'] defaultModel).result = Except.ok (none : Option PyStr) ∧
    ((none : Option PyStr) = none ∧ ∃ s,
      (summarize_transcript (fun _ _ _ => Except.ok ['s'] : Oracle Unit)
          ['h', 'i'] defaultModel).written = some s) :=
  ⟨rfl, summarize_result_none Unit _ ['h', 'i'] defaultModel none rfl⟩

/-- C7: if any remote call attempted during `summarize_transcript` fails (on
either path — a chunk-summarize call or the fix_summary call), the invocation
propagates an error, nothing is written to `summary.md`, and the partial
summaries of the invocation are discarded with it. -/
theorem error_atomicity (ε : Type) (complete : Oracle ε) (t m : PyStr)
    (h : ∃ c ∈ (summarize_transcript complete t m).calls,
          ∃ e, complete c.instr c.prompt c.model = Except.error e) :
    (summarize_transcript complete t m).written = none ∧
    ∃ pe, (summarize_transcript complete t m).result = Except.error pe := by
  rcases summarize_cases ε complete t m with ⟨_, _, hall⟩ | hfail
  · obtain ⟨c, hc, e, he⟩ := h
    obtain ⟨rr, hrr⟩ := hall c hc
    rw [he] at hrr
    exact Except.noConfusion hrr
  · exact hfail

/-- Witness for C7: a failing remote call aborts the invocation with no
write. -/
theorem error_atomicity_witness :
    (summarize_transcript (fun _ _ _ => Except.error () : Oracle Unit)
        ['h', 'i'] defaultModel).written = none ∧
    ∃ pe, (summarize_transcript (fun _ _ _ => Except.error () : Oracle Unit)
        ['h', 'i'] defaultModel).result = Except.error pe :=
  error_atomicity Unit _ ['h', 'i'] defaultModel
    ⟨⟨instructionsSummarize, ['h', 'i'], defaultModel⟩,
      List.mem_singleton.mpr rfl, ⟨(), rfl⟩⟩

/-- Which branch runs, as a function of the transcript length: the chunked
branch runs iff the direct-path test fails. -/
theorem chunkedPath_spec (ε : Type) (complete : Oracle ε) (t m : PyStr)
    (ctx : Nat) (h : models m = some ctx) :
    (summarize_transcript complete t m).chunkedPath =
      ! decide (10 * t.length < 6 * (ctx * 4)) := by
  unfold summarize_transcript
  simp only [h]
  by_cases hlen : 10 * t.length < 6 * (ctx * 4)
  · rw [if_pos hlen]
    cases complete instructionsSummarize t m <;> simp [hlen]
  · rw [if_neg hlen]
    split
    next e hp => simp [hlen]
    next summaries hp => split <;> simp [hlen]

/-- C3: for a model of the table with context size `ctx` tokens (`4 * ctx`
characters), `summarize_transcript` takes the direct path iff
`len(transcript) < 4 * ctx * 0.6` (for the table's context lengths the Python
float product is exactly this rational — see the header note); in particular
a transcript of length `⌊4 * ctx * 0.6⌋ - 1` takes the direct path and one of
length `⌈4 * ctx * 0.6⌉` or more takes the chunked path. -/
theorem direct_path_threshold (ε : Type) (complete : Oracle ε) (t m : PyStr)
    (ctx : Nat) (h : models m = some ctx) :
    ((summarize_transcript complete t m).chunkedPath = false ↔
      (t.length : ℚ) < (ctx : ℚ) * 4 * 0.6) ∧
    ((t.length : ℤ) = ⌊(ctx : ℚ) * 4 * 0.6⌋ - 1 →
      (summarize_transcript complete t m).chunkedPath = false) ∧
    ((⌈(ctx : ℚ) * 4 * 0.6⌉ : ℤ) ≤ (t.length : ℤ) →
      (summarize_transcript complete t m).chunkedPath = true) := by
  have h06 : (0.6 : ℚ) = 3 / 5 := by norm_num
  have key : (10 * t.length < 6 * (ctx * 4)) ↔
      ((t.length : ℚ) < (ctx : ℚ) * 4 * 0.6) := by
    rw [h06]
    constructor
    · intro hh
      have hq : ((10 * t.length : Nat) : ℚ) < ((6 * (ctx * 4) : Nat) : ℚ) := by
        exact_mod_cast hh
      push_cast at hq
      linarith
    · intro hh
      have hq : ((10 * t.length : Nat) : ℚ) < ((6 * (ctx * 4) : Nat) : ℚ) := by
        push_cast
        linarith
      exact_mod_cast hq
  rw [chunkedPath_spec ε complete t m ctx h]
  refine ⟨?_, ?_, ?_⟩
  · rw [← key]
    cases hd : decide (10 * t.length < 6 * (ctx * 4)) with
    | false => simpa using of_decide_eq_false hd
    | true => simpa using of_decide_eq_true hd
  · intro hfl
    have hle : ((⌊(ctx : ℚ) * 4 * 0.6⌋ : ℤ) : ℚ) ≤ (ctx : ℚ) * 4 * 0.6 :=
      Int.floor_le _
    have hlt : (t.length : ℚ) < (ctx : ℚ) * 4 * 0.6 := by
      have hq : ((t.length : ℤ) : ℚ) = ((⌊(ctx : ℚ) * 4 * 0.6⌋ : ℤ) : ℚ) - 1 := by
        exact_mod_cast hfl
      push_cast at hq ⊢
      linarith
    simp [key.mpr hlt]
  · intro hceil
    have hge : (ctx : ℚ) * 4 * 0.6 ≤ ((⌈(ctx : ℚ) * 4 * 0.6⌉ : ℤ) : ℚ) :=
      Int.le_ceil _
    have hnot : ¬ (10 * t.length < 6 * (ctx * 4)) := by
      intro hcon
      have hlt := key.mp hcon
      have hq : ((⌈(ctx : ℚ) * 4 * 0.6⌉ : ℤ) : ℚ) ≤ ((t.length : ℤ) : ℚ) := by
        exact_mod_cast hceil
      push_cast at hq
      linarith
    simp [hnot]

/-- Witness for C3 at a concrete direct-path invocation (length 2 with the
default model, whose threshold is 39324). -/
theorem direct_path_threshold_witness :
    models defaultModel = some 16385 ∧
    ((summarize_transcript (fun _ _ _ => Except.ok ['s'] : Oracle Unit)
        ['h', 'i'] defaultModel).chunkedPath = false ↔
      ((['h', 'i'] : PyStr).length : ℚ) < (16385 : ℚ) * 4 * 0.6) :=
  ⟨by decide,
    (direct_path_threshold Unit _ ['h', 'i'] defaultModel 16385 (by decide)).1⟩

/-! ## The chunk builder: size bound -/

theorem chunkChars_append_one (cur : List PyStr) (s : PyStr) :
    chunkChars (cur ++ [s]) = chunkChars cur + s.length := by
  simp [chunkChars]

theorem chunkLoop_chunk_bound (L : Nat) :
    ∀ (sents : List PyStr) (cur : List PyStr) (cl : Nat),
      cl = chunkChars cur →
      (cur = [] ∨ ∃ pre last, cur = pre ++ [last] ∧
          10 * cl ≤ 8 * L + 10 * last.length) →
      ∀ chunk ∈ chunkLoop L sents cur cl,
        ∃ pre last, chunk = pre ++ [last] ∧
          10 * chunkChars chunk ≤ 8 * L + 10 * last.length
  | [], cur, cl, hcl, hinv => by
    intro chunk hchunk
    by_cases hc : cur = []
    · simp [chunkLoop, hc] at hchunk
    · simp only [chunkLoop, if_neg hc] at hchunk
      rcases List.mem_singleton.mp hchunk with rfl
      rcases hinv with rfl | ⟨pre, last, hsplit, hb⟩
      · exact absurd rfl hc
      · exact ⟨pre, last, hsplit, by rw [← hcl]; exact hb⟩
  | s :: rest, cur, cl, hcl, hinv => by
    intro chunk hchunk
    by_cases hflush : 10 * cl > 8 * L
    · simp only [chunkLoop, if_pos hflush] at hchunk
      rcases List.mem_cons.mp hchunk with rfl | hmem
      · rcases hinv with rfl | ⟨pre, last, hsplit, hb⟩
        · rw [hcl] at hflush
          simp [chunkChars] at hflush
        · exact ⟨pre, last, hsplit, by rw [← hcl]; omega⟩
      · exact chunkLoop_chunk_bound L rest [] 0 rfl (Or.inl rfl) chunk hmem
    · simp only [chunkLoop, if_neg hflush] at hchunk
      refine chunkLoop_chunk_bound L rest (cur ++ [s]) (cl + s.length) ?_ ?_
        chunk hchunk
      · rw [chunkChars_append_one, hcl]
      · exact Or.inr ⟨cur, s, rfl, by omega⟩

/-- C6: every chunk produced by the chunked path consists of at least one
sentence, and its accumulated character count (as tracked by
`current_chunk_length`) is at most `contextLength * 0.8` plus the length of
its last sentence — the single trailing sentence appended after the last
passing boundary check. -/
theorem chunk_size_bound (t m : PyStr) (ctx : Nat) (h : models m = some ctx)
    (hlen : ¬ 10 * t.length < 6 * (ctx * 4)) (chunk : List PyStr)
    (hc : chunk ∈ buildChunksL (ctx * 4) (pySplit '.' t)) :
    ∃ pre last, chunk = pre ++ [last] ∧
      (chunkChars chunk : ℚ) ≤ (ctx : ℚ) * 4 * 0.8 + last.length := by
  obtain ⟨pre, last, hsplit, hb⟩ :=
    chunkLoop_chunk_bound (ctx * 4) (pySplit '.' t) [] 0 rfl (Or.inl rfl)
      chunk hc
  refine ⟨pre, last, hsplit, ?_⟩
  have h08 : (0.8 : ℚ) = 4 / 5 := by norm_num
  rw [h08]
  have hq : ((10 * chunkChars chunk : Nat) : ℚ) ≤
      ((8 * (ctx * 4) + 10 * last.length : Nat) : ℚ) := by exact_mod_cast hb
  push_cast at hq
  linarith

/-! ## Chunk computations at concrete transcripts -/

theorem noDot_replicate (n : Nat) : ∀ c ∈ List.replicate n 'a', c ≠ '.' := by
  intro c hc
  rw [List.eq_of_mem_replicate hc]
  decide

theorem pySplit_replicate (n : Nat) :
    pySplit '.' (List.replicate n 'a') = [List.replicate n 'a'] :=
  pySplit_eq_singleton '.' _ (noDot_replicate n)

theorem chunkLoop_cons_flush (L : Nat) (s : PyStr) (rest cur : List PyStr)
    (cl : Nat) (h : 10 * cl > 8 * L) :
    chunkLoop L (s :: rest) cur cl = cur :: chunkLoop L rest [] 0 := by
  simp only [chunkLoop, if_pos h]

theorem chunkLoop_cons_grow (L : Nat) (s : PyStr) (rest cur : List PyStr)
    (cl : Nat) (h : ¬ 10 * cl > 8 * L) :
    chunkLoop L (s :: rest) cur cl =
      chunkLoop L rest (cur ++ [s]) (cl + s.length) := by
  simp only [chunkLoop, if_neg h]

theorem chunkLoop_nil_of_ne (L : Nat) (cur : List PyStr) (cl : Nat)
    (h : ¬ cur = []) : chunkLoop L [] cur cl = [cur] := by
  simp only [chunkLoop, if_neg h]

theorem buildChunksL_replicate39324 :
    buildChunksL (16385 * 4) (pySplit '.' (List.replicate 39324 'a')) =
      [[List.replicate 39324 'a']] := by
  rw [pySplit_replicate, buildChunksL]
  rw [chunkLoop_cons_grow _ _ _ _ _ (by norm_num)]
  rw [chunkLoop_nil_of_ne _ _ _ (by simp [-List.reduceReplicate])]
  simp only [List.nil_append]

theorem buildChunks_replicate39324 :
    buildChunks (16385 * 4) (pySplit '.' (List.replicate 39324 'a')) =
      [List.replicate 39324 'a'] := by
  rw [buildChunks, buildChunksL_replicate39324]
  rfl

theorem pySplit_failT :
    pySplit '.' failT = [List.replicate 52433 'a', ['b'], ['c']] := by
  have hsmall : pySplit '.' ('.' :: 'b' :: '.' :: 'c' :: []) =
      [[], ['b'], ['c']] := by decide
  rw [failT, pySplit_append '.' ('.' :: 'b' :: '.' :: 'c' :: [])
    (List.replicate 52433 'a') (noDot_replicate 52433), hsmall]
  simp only [List.headI, List.tail_cons, List.append_nil]

theorem buildChunksL_failT :
    buildChunksL (16385 * 4) (pySplit '.' failT) =
      [[List.replicate 52433 'a'], [['c']]] := by
  rw [pySplit_failT, buildChunksL]
  rw [chunkLoop_cons_grow _ _ _ _ _ (by norm_num)]
  rw [chunkLoop_cons_flush _ _ _ _ _
    (by rw [List.length_replicate]; norm_num)]
  rw [chunkLoop_cons_grow _ _ _ _ _ (by norm_num)]
  rw [chunkLoop_nil_of_ne _ _ _ (by simp)]
  simp only [List.nil_append]

/-! ## Remaining claims -/

/-- C5: on the chunked path with all remote calls succeeding, the calls made
are exactly one summarize call per chunk, in chunk order, followed by exactly
one fix_summary call whose user text is the partial summaries joined by a
newline in chunk order, and the response of that final call is what is
persisted as the FinalSummary. -/
theorem chunked_call_structure (ε : Type) (complete : Oracle ε)
    (resp : PyStr → PyStr → PyStr → PyStr)
    (hok : ∀ i p mm, complete i p mm = Except.ok (resp i p mm))
    (t m : PyStr) (ctx : Nat) (h : models m = some ctx)
    (hlen : ¬ 10 * t.length < 6 * (ctx * 4)) :
    (summarize_transcript complete t m).calls =
      ((buildChunks (ctx * 4) (pySplit '.' t)).map
          fun c => ⟨instructionsSummarize, c, m⟩) ++
        [⟨instructionsFixSummary,
          pyJoin '\n' ((buildChunks (ctx * 4) (pySplit '.' t)).map
            fun c => resp instructionsSummarize c m), m⟩] ∧
    (summarize_transcript complete t m).written =
      some (resp instructionsFixSummary
        (pyJoin '\n' ((buildChunks (ctx * 4) (pySplit '.' t)).map
          fun c => resp instructionsSummarize c m)) m) := by
  have hparts := summarizeParts_all_ok ε complete resp hok m
    (buildChunks (ctx * 4) (pySplit '.' t))
  unfold summarize_transcript
  simp only [h, if_neg hlen, hparts, hok]
  exact ⟨trivial, trivial⟩

/-- Witness for C5: a dot-free transcript of length 39324 takes the chunked
path and produces one chunk, so exactly two remote calls are made — one
summarize call on the chunk, then one fix_summary call on its partial
summary. -/
theorem chunked_call_structure_witness :
    models defaultModel = some 16385 ∧
    ¬ 10 * (List.replicate 39324 'a').length < 6 * (16385 * 4) ∧
    (summarize_transcript (fun _ _ _ => Except.ok ['s'] : Oracle Unit)
        (List.replicate 39324 'a') defaultModel).calls =
      [⟨instructionsSummarize, List.replicate 39324 'a', defaultModel⟩,
       ⟨instructionsFixSummary, ['s'], defaultModel⟩] := by
  have h1 : models defaultModel = some 16385 := by decide
  have h2 : ¬ 10 * (List.replicate 39324 'a').length < 6 * (16385 * 4) := by
    rw [List.length_replicate]
    decide
  refine ⟨h1, h2, ?_⟩
  have key := (chunked_call_structure Unit
    (fun _ _ _ => Except.ok ['s']) (fun _ _ _ => ['s'])
    (fun _ _ _ => rfl) (List.replicate 39324 'a') defaultModel 16385 h1 h2).1
  rw [key, buildChunks_replicate39324]
  simp [pyJoin, -List.reduceReplicate]

/-- Witness for C6: the single chunk of the dot-free 39324-character
transcript satisfies the size bound with its last (only) sentence. -/
theorem chunk_size_bound_witness :
    models defaultModel = some 16385 ∧
    ¬ 10 * (List.replicate 39324 'a').length < 6 * (16385 * 4) ∧
    [List.replicate 39324 'a'] ∈
      buildChunksL (16385 * 4) (pySplit '.' (List.replicate 39324 'a')) ∧
    ∃ pre last, ([List.replicate 39324 'a'] : List PyStr) = pre ++ [last] ∧
      (chunkChars [List.replicate 39324 'a'] : ℚ) ≤
        (16385 : ℚ) * 4 * 0.8 + last.length := by
  have h1 : models defaultModel = some 16385 := by decide
  have h2 : ¬ 10 * (List.replicate 39324 'a').length < 6 * (16385 * 4) := by
    rw [List.length_replicate]
    decide
  have h3 : [List.replicate 39324 'a'] ∈
      buildChunksL (16385 * 4) (pySplit '.' (List.replicate 39324 'a')) := by
    rw [buildChunksL_replicate39324]
    exact List.mem_singleton.mpr rfl
  exact ⟨h1, h2, h3,
    chunk_size_bound (List.replicate 39324 'a') defaultModel 16385 h1 h2
      [List.replicate 39324 'a'] h3⟩

/-- C1 fails on the code (code bug): in the flush branch of the chunk loop
the iteration's own sentence is neither appended nor reconsidered, so it is
lost.  For `failT` — which takes the chunked path for the default model — the
sentence `b` of the split transcript appears in no produced chunk, and
rejoining the chunks' sentences does not reproduce the transcript's sentence
sequence. -/
theorem chunk_coverage_failure :
    models defaultModel = some 16385 ∧
    ¬ 10 * failT.length < 6 * (16385 * 4) ∧
    ['b'] ∈ pySplit '.' failT ∧
    ['b'] ∉ (buildChunksL (16385 * 4) (pySplit '.' failT)).flatten ∧
    (buildChunksL (16385 * 4) (pySplit '.' failT)).flatten ≠ pySplit '.' failT := by
  have hrb : List.replicate 52433 'a' ≠ (['b'] : PyStr) := by
    intro hcon
    have hlen := congrArg List.length hcon
    rw [List.length_replicate] at hlen
    simp at hlen
  have hflen : failT.length = 52437 := by
    rw [failT, List.length_append, List.length_replicate]
    norm_num
  refine ⟨by decide, ?_, ?_, ?_, ?_⟩
  · rw [hflen]
    decide
  · rw [pySplit_failT]
    simp [-List.reduceReplicate]
  · rw [buildChunksL_failT]
    intro hmem
    simp only [List.flatten_cons, List.flatten_nil, List.append_nil,
      List.singleton_append, List.mem_cons, List.not_mem_nil, or_false] at hmem
    rcases hmem with h1 | h2
    · exact hrb h1.symm
    · exact absurd h2 (by decide)
  · rw [buildChunksL_failT, pySplit_failT]
    intro hcon
    have hlen2 := congrArg List.length hcon
    simp only [List.flatten_cons, List.flatten_nil, List.append_nil,
      List.length_append, List.length_cons, List.length_singleton,
      List.length_nil] at hlen2
    omega

/-- C2 fails on the code (code bug): for `failT` the boundary check fires at
sentence `b` (52433 accumulated characters exceed the 52432 threshold); the
current chunk is indeed closed then, but the triggering sentence `b` does not
become the first sentence of the next chunk — it is discarded: the next chunk
begins with `c`. -/
theorem boundary_sentence_failure :
    pySplit '.' failT = [List.replicate 52433 'a', ['b'], ['c']] ∧
    10 * chunkChars [List.replicate 52433 'a'] > 8 * (16385 * 4) ∧
    buildChunksL (16385 * 4) (pySplit '.' failT) =
      [[List.replicate 52433 'a'], [['c']]] ∧
    ∀ next, buildChunksL (16385 * 4) (pySplit '.' failT) =
        [[List.replicate 52433 'a'], next] → next.headI ≠ ['b'] := by
  refine ⟨pySplit_failT, ?_, buildChunksL_failT, ?_⟩
  · have hcc : chunkChars [List.replicate 52433 'a'] = 52433 := by
      simp [chunkChars, -List.reduceReplicate]
    rw [hcc]
    norm_num
  · intro next hnext
    rw [buildChunksL_failT] at hnext
    obtain ⟨-, h2⟩ := List.cons.inj hnext
    obtain ⟨h3, -⟩ := List.cons.inj h2
    rw [← h3]
    decide

end WhisperLive
